import Mathlib

/-!
Verification development for the HexCore PE Analyzer core (`peParser.ts`).

The byte source is modelled as a bounded, randomly addressable view over
bytes (`Buffer`): a total function from indices to bytes together with a
size.  Reads of Node `Buffer`s that throw a `RangeError` when out of
bounds are modelled in the `Except String` monad; reads that the source
performs only under an explicit bounds guard use the total readers.
`fs.readSync` on a regular file never throws for positions at or beyond
the end of file: it simply leaves the zero-initialised destination buffer
untouched, which `readSyncAt` models by zero padding.

The host regular-expression engine used by `extractSuspiciousStrings` is
not repository code; it is modelled as an abstract parameter `matcher`
mapping a pattern index and the scanned bytes to the list of matches.
`Date.prototype.toISOString` is likewise host code and is abstracted by
`isoDate`.
-/

/-- A bounded, randomly addressable view over bytes. -/
structure Buffer where
  data : Nat → Fin 256
  size : Nat

/-- The byte at index `i`, as a natural number. -/
def Buffer.byte (b : Buffer) (i : Nat) : Nat :=
  (b.data i).val

/-- Build a buffer from an explicit list of bytes. -/
def bufOfList (l : List (Fin 256)) : Buffer :=
  { data := fun i => l.getD i 0, size := l.length }

/-- `buffer.readUInt8(off)`, value part. -/
def readUInt8 (b : Buffer) (off : Nat) : Nat :=
  b.byte off

/-- `buffer.readUInt16LE(off)`, value part. -/
def readUInt16LE (b : Buffer) (off : Nat) : Nat :=
  b.byte off + 256 * b.byte (off + 1)

/-- `buffer.readUInt32LE(off)`, value part. -/
def readUInt32LE (b : Buffer) (off : Nat) : Nat :=
  b.byte off + 256 * b.byte (off + 1) + 65536 * b.byte (off + 2) +
    16777216 * b.byte (off + 3)

/-- `buffer.readBigUInt64LE(off)`, value part. -/
def readBigUInt64LE (b : Buffer) (off : Nat) : Nat :=
  readUInt32LE b off + 4294967296 * readUInt32LE b (off + 4)

/-- Message of the `RangeError` Node throws on an out-of-bounds read. -/
def oobMsg : String :=
  "Attempt to access memory outside buffer bounds"

/-- `buffer.readUInt8(off)`: throws when out of bounds. -/
def readUInt8E (b : Buffer) (off : Nat) : Except String Nat :=
  if off + 1 ≤ b.size then .ok (readUInt8 b off) else .error oobMsg

/-- `buffer.readUInt16LE(off)`: throws when out of bounds. -/
def readUInt16E (b : Buffer) (off : Nat) : Except String Nat :=
  if off + 2 ≤ b.size then .ok (readUInt16LE b off) else .error oobMsg

/-- `buffer.readUInt32LE(off)`: throws when out of bounds. -/
def readUInt32E (b : Buffer) (off : Nat) : Except String Nat :=
  if off + 4 ≤ b.size then .ok (readUInt32LE b off) else .error oobMsg

/-- `buffer.readBigUInt64LE(off)`: throws when out of bounds. -/
def readUInt64E (b : Buffer) (off : Nat) : Except String Nat :=
  if off + 8 ≤ b.size then .ok (readBigUInt64LE b off) else .error oobMsg

/-- `buffer.toString('ascii', start, stop)` as a character list.  Node
clamps the range to the buffer and the `ascii` codec masks each byte to
its low seven bits. -/
def asciiDecode (b : Buffer) (start stop : Nat) : List Char :=
  let lo := min start b.size
  let hi := min stop b.size
  (List.range (hi - lo)).map (fun k => Char.ofNat (b.byte (lo + k) % 128))

/-- `buffer.toString('ascii', start, stop)`. -/
def bufToString (b : Buffer) (start stop : Nat) : String :=
  String.mk (asciiDecode b start stop)

/-- The contents of a buffer as a byte list (`buffer.toString('binary')`
viewed as raw bytes). -/
def bytesOf (b : Buffer) : List (Fin 256) :=
  (List.range b.size).map b.data

/-- `fs.readSync(fd, Buffer.alloc(len), 0, len, pos)`: reads bytes
`[pos, pos + len)` of the file into a zero-initialised buffer; positions
at or beyond the end of file leave the zero fill in place. -/
def readSyncAt (file : Buffer) (pos len : Nat) : Buffer :=
  { size := len
    data := fun i => if i < len ∧ pos + i < file.size then file.data (pos + i) else 0 }

/-- `buffer.subarray(n)`. -/
def bufDrop (b : Buffer) (n : Nat) : Buffer :=
  { size := b.size - n
    data := fun i => if i < b.size - n then b.data (n + i) else 0 }

/-- The up-to-1-MiB header buffer read at the start of `analyzePEFile`:
`Buffer.alloc(Math.min(stats.size, 1024 * 1024))` filled from offset 0. -/
def headerBuffer (file : Buffer) : Buffer :=
  { size := min file.size 1048576
    data := fun i => if i < min file.size 1048576 then file.data i else 0 }

-- ============================================================================
-- TYPE DEFINITIONS (from the source interfaces)
-- ============================================================================

structure DOSHeader where
  magic : String
  lastPageBytes : Nat
  pagesInFile : Nat
  relocations : Nat
  headerSizeInParagraphs : Nat
  peHeaderOffset : Nat
deriving DecidableEq

structure PEHeader where
  signature : String
  machine : String
  machineRaw : Nat
  numberOfSections : Nat
  timeDateStamp : Nat
  timeDateStampHuman : String
  pointerToSymbolTable : Nat
  numberOfSymbols : Nat
  sizeOfOptionalHeader : Nat
  characteristics : List String
  characteristicsRaw : Nat
deriving DecidableEq

structure DataDirectory where
  name : String
  virtualAddress : Nat
  size : Nat
deriving DecidableEq

structure OptionalHeader where
  magic : String
  is64Bit : Bool
  majorLinkerVersion : Nat
  minorLinkerVersion : Nat
  sizeOfCode : Nat
  sizeOfInitializedData : Nat
  sizeOfUninitializedData : Nat
  addressOfEntryPoint : Nat
  baseOfCode : Nat
  imageBase : Nat
  sectionAlignment : Nat
  fileAlignment : Nat
  majorOSVersion : Nat
  minorOSVersion : Nat
  majorImageVersion : Nat
  minorImageVersion : Nat
  majorSubsystemVersion : Nat
  minorSubsystemVersion : Nat
  sizeOfImage : Nat
  sizeOfHeaders : Nat
  checksum : Nat
  subsystem : String
  subsystemRaw : Nat
  dllCharacteristics : List String
  dllCharacteristicsRaw : Nat
  sizeOfStackReserve : Nat
  sizeOfStackCommit : Nat
  sizeOfHeapReserve : Nat
  sizeOfHeapCommit : Nat
  numberOfRvaAndSizes : Nat
  dataDirectories : List DataDirectory
deriving DecidableEq

structure SectionHeader where
  name : String
  virtualSize : Nat
  virtualAddress : Nat
  sizeOfRawData : Nat
  pointerToRawData : Nat
  characteristics : List String
  characteristicsRaw : Nat
  entropy : ℝ

structure ImportEntry where
  dllName : String
  functions : List String
deriving DecidableEq

structure ExportEntry where
  ordinal : Nat
  name : String
  address : Nat
deriving DecidableEq

structure TimestampInfo where
  compile : String
  compileUnix : Nat
deriving DecidableEq

structure PEAnalysis where
  fileSize : Nat
  isPE : Bool
  error : Option String
  dosHeader : Option DOSHeader
  peHeader : Option PEHeader
  optionalHeader : Option OptionalHeader
  sections : List SectionHeader
  imports : List ImportEntry
  exports : List ExportEntry
  entropy : ℝ
  suspiciousStrings : List String
  packerSignatures : List String
  timestamps : TimestampInfo

-- ============================================================================
-- CONSTANTS (from the source tables)
-- ============================================================================

def MACHINE_TYPES : List (Nat × String) :=
  [(0x0, "Unknown"), (0x14c, "i386 (x86)"), (0x8664, "AMD64 (x64)"),
   (0x1c0, "ARM"), (0xaa64, "ARM64"), (0x1c4, "ARM Thumb-2"),
   (0x200, "IA64 (Itanium)")]

def SUBSYSTEMS : List (Nat × String) :=
  [(0, "Unknown"), (1, "Native"), (2, "Windows GUI"), (3, "Windows Console"),
   (5, "OS/2 Console"), (7, "POSIX Console"), (9, "Windows CE GUI"),
   (10, "EFI Application"), (11, "EFI Boot Service Driver"),
   (12, "EFI Runtime Driver"), (13, "EFI ROM"), (14, "Xbox"),
   (16, "Windows Boot Application")]

/-- `Object.entries` of the source record enumerates the integer keys in
ascending numeric order, which is the order written here. -/
def PE_CHARACTERISTICS : List (Nat × String) :=
  [(0x0001, "RELOCS_STRIPPED"), (0x0002, "EXECUTABLE_IMAGE"),
   (0x0004, "LINE_NUMS_STRIPPED"), (0x0008, "LOCAL_SYMS_STRIPPED"),
   (0x0010, "AGGRESSIVE_WS_TRIM"), (0x0020, "LARGE_ADDRESS_AWARE"),
   (0x0080, "BYTES_REVERSED_LO"), (0x0100, "32BIT_MACHINE"),
   (0x0200, "DEBUG_STRIPPED"), (0x0400, "REMOVABLE_RUN_FROM_SWAP"),
   (0x0800, "NET_RUN_FROM_SWAP"), (0x1000, "SYSTEM"), (0x2000, "DLL"),
   (0x4000, "UP_SYSTEM_ONLY"), (0x8000, "BYTES_REVERSED_HI")]

def SECTION_CHARACTERISTICS : List (Nat × String) :=
  [(0x00000020, "CODE"), (0x00000040, "INITIALIZED_DATA"),
   (0x00000080, "UNINITIALIZED_DATA"), (0x02000000, "DISCARDABLE"),
   (0x04000000, "NOT_CACHED"), (0x08000000, "NOT_PAGED"),
   (0x10000000, "SHARED"), (0x20000000, "EXECUTE"), (0x40000000, "READ"),
   (0x80000000, "WRITE")]

def DLL_CHARACTERISTICS : List (Nat × String) :=
  [(0x0020, "HIGH_ENTROPY_VA"), (0x0040, "DYNAMIC_BASE (ASLR)"),
   (0x0080, "FORCE_INTEGRITY"), (0x0100, "NX_COMPAT (DEP)"),
   (0x0200, "NO_ISOLATION"), (0x0400, "NO_SEH"), (0x0800, "NO_BIND"),
   (0x1000, "APPCONTAINER"), (0x2000, "WDM_DRIVER"), (0x4000, "GUARD_CF"),
   (0x8000, "TERMINAL_SERVER_AWARE")]

def DATA_DIRECTORY_NAMES : List String :=
  ["Export Table", "Import Table", "Resource Table", "Exception Table",
   "Certificate Table", "Base Relocation Table", "Debug", "Architecture",
   "Global Ptr", "TLS Table", "Load Config Table", "Bound Import", "IAT",
   "Delay Import Descriptor", "CLR Runtime Header", "Reserved"]

/-- Every entry of the source's `PACKER_SIGNATURES` table has a string
pattern (the `RegExp` alternative of the type annotation is unused), so
the table is modelled as name/pattern string pairs. -/
def PACKER_SIGNATURES : List (String × String) :=
  [("UPX", "UPX0"), ("UPX", "UPX1"), ("UPX", "UPX!"),
   ("ASPack", ".aspack"), ("ASPack", "ByDwing"), ("PECompact", "PEC2"),
   ("Themida", ".themida"), ("VMProtect", ".vmp0"), ("VMProtect", ".vmp1"),
   ("Enigma", ".enigma"), ("MPRESS", ".MPRESS"), ("Petite", ".petite"),
   ("NSPack", ".nsp0"), ("PELock", "PELock"), ("Armadillo", ".text1"),
   (".NET", "mscoree.dll")]

-- ============================================================================
-- SMALL UTILITIES
-- ============================================================================

/-- First value in an association list with the given numeric key. -/
def lookupNum (t : List (Nat × String)) (k : Nat) : Option String :=
  (t.find? (fun p => p.1 == k)).map (fun p => p.2)

/-- Hexadecimal rendering used by `machine.toString(16)`. -/
def hexString (n : Nat) : String :=
  String.mk (Nat.toDigits 16 n)

/-- `MACHINE_TYPES[machine] || unknown-template`. -/
def machineName (m : Nat) : String :=
  (lookupNum MACHINE_TYPES m).getD ("Unknown (0x" ++ hexString m ++ ")")

/-- `SUBSYSTEMS[subsystem] || unknown-template`. -/
def subsystemName (s : Nat) : String :=
  (lookupNum SUBSYSTEMS s).getD ("Unknown (" ++ toString s ++ ")")

/-- `DATA_DIRECTORY_NAMES[i] || template`. -/
def dataDirectoryName (i : Nat) : String :=
  DATA_DIRECTORY_NAMES.getD i ("Directory " ++ toString i)

/-- Abstract stand-in for `new Date(ts * 1000).toISOString()`; the
rendered text matters to no claim. -/
def isoDate (ts : Nat) : String :=
  toString ts

/-- `parseFlags` from the source: collect the names of the set bits. -/
def parseFlags (value : Nat) (flagMap : List (Nat × String)) : List String :=
  flagMap.foldl (fun flags p => if Nat.land value p.1 ≠ 0 then flags ++ [p.2] else flags) []

/-- Boolean test for `p` occurring as a contiguous run inside `l`
(JavaScript `String.prototype.includes` on the decoded bytes). -/
def infixCheck {α : Type} [DecidableEq α] (p : List α) : List α → Bool
  | [] => p.isEmpty
  | a :: t => p.isPrefixOf (a :: t) || infixCheck p t

/-- The bytes of an ASCII string literal (its UTF-16 code units truncated
to bytes, faithful to `latin1` pattern matching for the ASCII-only
signature table). -/
def strBytes (s : String) : List (Fin 256) :=
  s.toList.map (fun c => Fin.ofNat c.toNat)

/-- JavaScript `Set` insertion: append if not already present. -/
def setAdd (acc : List String) (name : String) : List String :=
  if name ∈ acc then acc else acc ++ [name]

/-- `readNullTerminatedString` from the source: bytes up to the first
NUL (or the whole buffer), decoded as ASCII. -/
def readNullTerminatedString (b : Buffer) : String :=
  String.mk (((((List.range b.size).map b.byte).takeWhile (fun c => c ≠ 0))).map
    (fun c => Char.ofNat (c % 128)))

/-- `rvaToFileOffset` from the source: first section whose
`[virtualAddress, virtualAddress + virtualSize)` interval contains the
RVA wins; the sentinel 0 means unresolved. -/
def rvaToFileOffset (rva : Nat) : List SectionHeader → Nat
  | [] => 0
  | sec :: rest =>
    if sec.virtualAddress ≤ rva ∧ rva < sec.virtualAddress + sec.virtualSize then
      sec.pointerToRawData + (rva - sec.virtualAddress)
    else rvaToFileOffset rva rest

/-- `calculateEntropy` from the source: 256-bin frequency histogram,
Shannon entropy over the non-zero bins, rounded to two decimals by
`Math.round(entropy * 100) / 100`. -/
noncomputable def calculateEntropy (b : Buffer) : ℝ :=
  if b.size = 0 then 0
  else
    let raw : ℝ := ∑ v : Fin 256,
      if 0 < (bytesOf b).count v then
        -((((bytesOf b).count v : ℝ) / (b.size : ℝ)) *
          Real.logb 2 (((bytesOf b).count v : ℝ) / (b.size : ℝ)))
      else 0
    ((round (raw * 100) : ℤ) : ℝ) / 100

-- ============================================================================
-- HEADER PARSERS
-- ============================================================================

/-- `parseDOSHeader` from the source; reads sequence in evaluation order
of the object literal. -/
def parseDOSHeader (buffer : Buffer) : Except String DOSHeader := do
  let magic := bufToString buffer 0 2
  let lastPageBytes ← readUInt16E buffer 2
  let pagesInFile ← readUInt16E buffer 4
  let relocations ← readUInt16E buffer 6
  let headerSizeInParagraphs ← readUInt16E buffer 8
  let peHeaderOffset ← readUInt32E buffer 60
  return { magic, lastPageBytes, pagesInFile, relocations,
           headerSizeInParagraphs, peHeaderOffset }

/-- `parsePEHeader` from the source. -/
def parsePEHeader (buffer : Buffer) (offset : Nat) : Except String PEHeader := do
  let machine ← readUInt16E buffer offset
  let characteristics ← readUInt16E buffer (offset + 18)
  let timestamp ← readUInt32E buffer (offset + 4)
  let numberOfSections ← readUInt16E buffer (offset + 2)
  let pointerToSymbolTable ← readUInt32E buffer (offset + 8)
  let numberOfSymbols ← readUInt32E buffer (offset + 12)
  let sizeOfOptionalHeader ← readUInt16E buffer (offset + 16)
  return {
    signature := "PE"
    machine := machineName machine
    machineRaw := machine
    numberOfSections
    timeDateStamp := timestamp
    timeDateStampHuman := if 0 < timestamp then isoDate timestamp else "Invalid"
    pointerToSymbolTable
    numberOfSymbols
    sizeOfOptionalHeader
    characteristics := parseFlags characteristics PE_CHARACTERISTICS
    characteristicsRaw := characteristics }

/-- The data-directory loop of `parseOptionalHeader`: up to
`min(numberOfRvaAndSizes, 16)` guarded eight-byte entries. -/
def parseDataDirectories (buffer : Buffer) (base n : Nat) : List DataDirectory :=
  (List.range (min n 16)).foldl (fun acc i =>
    if base + i * 8 + 8 ≤ buffer.size then
      acc ++ [{ name := dataDirectoryName i
                virtualAddress := readUInt32LE buffer (base + i * 8)
                size := readUInt32LE buffer (base + i * 8 + 4) }]
    else acc) []

/-- `parseOptionalHeader` from the source.  The bitness-independent
offsets whose two ternary branches coincide (e.g. `is64Bit ? 68 : 68`)
are written plainly.  `size` is declared but unused, as in the source. -/
def parseOptionalHeader (buffer : Buffer) (offset _size : Nat) :
    Except String OptionalHeader := do
  let magic ← readUInt16E buffer offset
  let is64Bit := magic == 0x20b
  let subsystem ← readUInt16E buffer (offset + 68)
  let dllCharacteristics ← readUInt16E buffer (offset + 70)
  let numberOfRvaAndSizes ← readUInt32E buffer (offset + (if is64Bit then 108 else 92))
  let dataDirectories := parseDataDirectories buffer
    (offset + (if is64Bit then 112 else 96)) numberOfRvaAndSizes
  let majorLinkerVersion ← readUInt8E buffer (offset + 2)
  let minorLinkerVersion ← readUInt8E buffer (offset + 3)
  let sizeOfCode ← readUInt32E buffer (offset + 4)
  let sizeOfInitializedData ← readUInt32E buffer (offset + 8)
  let sizeOfUninitializedData ← readUInt32E buffer (offset + 12)
  let addressOfEntryPoint ← readUInt32E buffer (offset + 16)
  let baseOfCode ← readUInt32E buffer (offset + 20)
  let imageBase ← if is64Bit then readUInt64E buffer (offset + 24)
                  else readUInt32E buffer (offset + 28)
  let sectionAlignment ← readUInt32E buffer (offset + 32)
  let fileAlignment ← readUInt32E buffer (offset + 36)
  let majorOSVersion ← readUInt16E buffer (offset + 40)
  let minorOSVersion ← readUInt16E buffer (offset + 42)
  let majorImageVersion ← readUInt16E buffer (offset + 44)
  let minorImageVersion ← readUInt16E buffer (offset + 46)
  let majorSubsystemVersion ← readUInt16E buffer (offset + 48)
  let minorSubsystemVersion ← readUInt16E buffer (offset + 50)
  let sizeOfImage ← readUInt32E buffer (offset + 56)
  let sizeOfHeaders ← readUInt32E buffer (offset + 60)
  let checksum ← readUInt32E buffer (offset + 64)
  let sizeOfStackReserve ← if is64Bit then readUInt64E buffer (offset + 72)
                           else readUInt32E buffer (offset + 72)
  let sizeOfStackCommit ← if is64Bit then readUInt64E buffer (offset + 80)
                          else readUInt32E buffer (offset + 76)
  let sizeOfHeapReserve ← if is64Bit then readUInt64E buffer (offset + 88)
                          else readUInt32E buffer (offset + 80)
  let sizeOfHeapCommit ← if is64Bit then readUInt64E buffer (offset + 96)
                         else readUInt32E buffer (offset + 84)
  return {
    magic := if is64Bit then "PE32+ (64-bit)" else "PE32 (32-bit)"
    is64Bit
    majorLinkerVersion
    minorLinkerVersion
    sizeOfCode
    sizeOfInitializedData
    sizeOfUninitializedData
    addressOfEntryPoint
    baseOfCode
    imageBase
    sectionAlignment
    fileAlignment
    majorOSVersion
    minorOSVersion
    majorImageVersion
    minorImageVersion
    majorSubsystemVersion
    minorSubsystemVersion
    sizeOfImage
    sizeOfHeaders
    checksum
    subsystem := subsystemName subsystem
    subsystemRaw := subsystem
    dllCharacteristics := parseFlags dllCharacteristics DLL_CHARACTERISTICS
    dllCharacteristicsRaw := dllCharacteristics
    sizeOfStackReserve
    sizeOfStackCommit
    sizeOfHeapReserve
    sizeOfHeapCommit
    numberOfRvaAndSizes
    dataDirectories }

/-- Section name: `buffer.toString('ascii', secOffset, secOffset + 8)`
with every NUL removed (`.replace` with a global NUL pattern). -/
def sectionNameAt (buffer : Buffer) (secOffset : Nat) : String :=
  String.mk ((asciiDecode buffer secOffset (secOffset + 8)).filter
    (fun c => c ≠ Char.ofNat 0))

/-- The loop body of `parseSectionHeaders`: iterate the declared count of
40-byte records, stopping at the first record that would overrun the
header buffer.  The per-section raw window read never throws (see
`readSyncAt`), so the source's inner try/catch has nothing to catch. -/
noncomputable def parseSectionHeadersGo (buffer file : Buffer) (offset : Nat) :
    Nat → List SectionHeader
  | 0 => []
  | n + 1 =>
    if buffer.size < offset + 40 then []
    else
      let pointerToRawData := readUInt32LE buffer (offset + 20)
      let sizeOfRawData := readUInt32LE buffer (offset + 16)
      let characteristics := readUInt32LE buffer (offset + 36)
      { name := sectionNameAt buffer offset
        virtualSize := readUInt32LE buffer (offset + 8)
        virtualAddress := readUInt32LE buffer (offset + 12)
        sizeOfRawData
        pointerToRawData
        characteristics := parseFlags characteristics SECTION_CHARACTERISTICS
        characteristicsRaw := characteristics
        entropy :=
          if 0 < sizeOfRawData ∧ 0 < pointerToRawData then
            calculateEntropy (readSyncAt file pointerToRawData (min sizeOfRawData 65536))
          else 0 } :: parseSectionHeadersGo buffer file (offset + 40) n

/-- `parseSectionHeaders` from the source. -/
noncomputable def parseSectionHeaders (buffer : Buffer) (offset count : Nat)
    (file : Buffer) : List SectionHeader :=
  parseSectionHeadersGo buffer file offset count

-- ============================================================================
-- IMPORT PARSER
-- ============================================================================

/-- The inner thunk-walk loop of `parseImports`.  The extra list
accumulates the file positions handed to `fs.readSync`, making the
attempted reads observable.  `2147483648 ≤ thunkValue` is the source's
`thunkValue & 0x80000000` truthiness test on a 32-bit value, and
`thunkValue % 65536` its `thunkValue & 0xFFFF`. -/
def walkThunksGo (file : Buffer) (sections : List SectionHeader) (tb : Buffer)
    (thunkPos : Nat) (functions : List String) (log : List Nat) :
    List String × List Nat :=
  if h : thunkPos + 4 ≤ tb.size ∧ functions.length < 100 then
    let thunkValue := readUInt32LE tb thunkPos
    if thunkValue = 0 then (functions, log)
    else if 2147483648 ≤ thunkValue then
      walkThunksGo file sections tb (thunkPos + 4)
        (functions ++ ["Ordinal " ++ toString (thunkValue % 65536)]) log
    else
      let hintNameOffset := rvaToFileOffset thunkValue sections
      if 0 < hintNameOffset then
        let funcName := readNullTerminatedString
          (bufDrop (readSyncAt file hintNameOffset 256) 2)
        if 0 < funcName.length ∧ funcName.length < 200 then
          walkThunksGo file sections tb (thunkPos + 4) (functions ++ [funcName])
            (log ++ [hintNameOffset])
        else walkThunksGo file sections tb (thunkPos + 4) functions
            (log ++ [hintNameOffset])
      else walkThunksGo file sections tb (thunkPos + 4) functions log
  else (functions, log)
termination_by tb.size - thunkPos
decreasing_by all_goals omega

/-- The import-descriptor loop of `parseImports`, with the same read
log.  `originalFirstThunk || firstThunk` is the JavaScript truthiness
choice between the ILT and IAT RVAs. -/
def parseImportsGo (file : Buffer) (sections : List SectionHeader)
    (importBuffer : Buffer) (offset : Nat) (imports : List ImportEntry)
    (log : List Nat) : List ImportEntry × List Nat :=
  if h : offset + 20 ≤ importBuffer.size ∧ imports.length < 200 then
    let originalFirstThunk := readUInt32LE importBuffer offset
    let nameRVA := readUInt32LE importBuffer (offset + 12)
    let firstThunk := readUInt32LE importBuffer (offset + 16)
    if nameRVA = 0 then (imports, log)
    else
      let nameOffset := rvaToFileOffset nameRVA sections
      if 0 < nameOffset then
        let dllName := readNullTerminatedString (readSyncAt file nameOffset 256)
        let thunkRVA := if originalFirstThunk ≠ 0 then originalFirstThunk else firstThunk
        let fl :=
          if 0 < thunkRVA then
            let thunkOffset := rvaToFileOffset thunkRVA sections
            if 0 < thunkOffset then
              walkThunksGo file sections (readSyncAt file thunkOffset 2048) 0 []
                (log ++ [nameOffset, thunkOffset])
            else ([], log ++ [nameOffset])
          else ([], log ++ [nameOffset])
        parseImportsGo file sections importBuffer (offset + 20)
          (imports ++ [{ dllName, functions := fl.1.take 50 }]) fl.2
      else parseImportsGo file sections importBuffer (offset + 20) imports log
  else (imports, log)
termination_by importBuffer.size - offset
decreasing_by all_goals omega

/-- `parseImports` from the source, paired with the list of file
positions at which `fs.readSync` is invoked.  The source's `headerBuffer`
parameter is declared but unused, as in the source. -/
def parseImportsLog (file _headerBuffer : Buffer) (importDir : DataDirectory)
    (sections : List SectionHeader) : List ImportEntry × List Nat :=
  if importDir.virtualAddress = 0 ∨ importDir.size = 0 then ([], [])
  else
    let fileOffset := rvaToFileOffset importDir.virtualAddress sections
    if fileOffset = 0 then ([], [])
    else
      parseImportsGo file sections
        (readSyncAt file fileOffset (min importDir.size 16384)) 0 [] [fileOffset]

/-- The import entries produced by `parseImports`. -/
def parseImports (file headerBuf : Buffer) (importDir : DataDirectory)
    (sections : List SectionHeader) : List ImportEntry :=
  (parseImportsLog file headerBuf importDir sections).1

-- ============================================================================
-- PACKER DETECTOR AND SUSPICIOUS STRINGS
-- ============================================================================

/-- The per-section body of the second `detectPackers` loop: five
independent case-insensitive fragment tests on the decoded name. -/
def checkSectionName (acc : List String) (name : String) : List String :=
  let lower := name.toList.map Char.toLower
  let a1 := if infixCheck "upx".toList lower then setAdd acc "UPX" else acc
  let a2 := if infixCheck "aspack".toList lower then setAdd a1 "ASPack" else a1
  let a3 := if infixCheck "vmp".toList lower then setAdd a2 "VMProtect" else a2
  let a4 := if infixCheck "themida".toList lower then setAdd a3 "Themida" else a3
  if infixCheck "enigma".toList lower then setAdd a4 "Enigma" else a4

/-- `detectPackers` from the source: scan the raw bytes for the string
signatures, then the decoded section names, into an insertion-ordered
set. -/
def detectPackers (buffer : Buffer) (sections : List SectionHeader) : List String :=
  let detected := PACKER_SIGNATURES.foldl
    (fun acc sig => if infixCheck (strBytes sig.2) (bytesOf buffer)
                    then setAdd acc sig.1 else acc) []
  sections.foldl (fun acc sec => checkSectionName acc sec.name) detected

/-- The type of the abstract host regular-expression engine: pattern
index and scanned bytes to the list of matched strings. -/
def Matcher : Type :=
  Nat → List (Fin 256) → List String

/-- A trivial engine instance used by concrete witnesses. -/
def trivMatcher : Matcher :=
  fun _ _ => []

/-- `extractSuspiciousStrings` from the source: for each of the seven
patterns take at most ten matches of length in (5, 200), then dedupe and
cap at fifty.  Only the regular-expression engine itself is abstract. -/
def extractSuspiciousStrings (matcher : Matcher) (buffer : Buffer) : List String :=
  let suspicious := (List.range 7).foldl (fun acc i =>
    acc ++ (((matcher i (bytesOf buffer)).take 10).filter
      (fun m => 5 < m.length ∧ m.length < 200))) []
  (suspicious.foldl setAdd []).take 50

-- ============================================================================
-- MAIN PARSER
-- ============================================================================

def msgTooSmall : String := "File too small to be a valid PE"
def msgBadDOS : String := "Invalid DOS header (not MZ)"
def msgPEOffsetBeyond : String := "PE header offset beyond file size"
def msgBadPESig : String := "Invalid PE signature"
def peSigStr : String := "PE\x00\x00"

/-- The initial `analysis` record of `analyzePEFile`. -/
def baseAnalysis (file : Buffer) : PEAnalysis :=
  { fileSize := file.size
    isPE := false
    error := none
    dosHeader := none
    peHeader := none
    optionalHeader := none
    sections := []
    imports := []
    exports := []
    entropy := 0
    suspiciousStrings := []
    packerSignatures := []
    timestamps := { compile := "Unknown", compileUnix := 0 } }

/-- The `try` block of `analyzePEFile`, over the already buffered header
bytes.  A thrown exception is an `Except.error` carrying the partially
filled analysis record alongside the message; the structural-error early
returns are ordinary `.ok` results. -/
noncomputable def analyzeStepsB (matcher : Matcher) (buffer file : Buffer) :
    Except (PEAnalysis × String) PEAnalysis :=
  let a0 := baseAnalysis file
  if buffer.size < 64 then .ok { a0 with error := some msgTooSmall }
  else
    match parseDOSHeader buffer with
    | .error e => .error (a0, e)
    | .ok dosHeader =>
      if dosHeader.magic ≠ "MZ" then .ok { a0 with error := some msgBadDOS }
      else
        let a1 := { a0 with dosHeader := some dosHeader }
        let peOffset := dosHeader.peHeaderOffset
        if buffer.size < peOffset + 4 then .ok { a1 with error := some msgPEOffsetBeyond }
        else if bufToString buffer peOffset (peOffset + 4) ≠ peSigStr then
          .ok { a1 with error := some msgBadPESig }
        else
          let a2 := { a1 with isPE := true }
          match parsePEHeader buffer (peOffset + 4) with
          | .error e => .error (a2, e)
          | .ok peHeader =>
            let a3 := { a2 with
              peHeader := some peHeader
              timestamps := { compile := peHeader.timeDateStampHuman
                              compileUnix := peHeader.timeDateStamp } }
            let optionalHeaderOffset := peOffset + 24
            match (if 0 < peHeader.sizeOfOptionalHeader then
                     Except.map some (parseOptionalHeader buffer optionalHeaderOffset
                       peHeader.sizeOfOptionalHeader)
                   else .ok none) with
            | .error e => .error (a3, e)
            | .ok optionalHeader =>
              let a4 := { a3 with optionalHeader := optionalHeader }
              let sections := parseSectionHeaders buffer
                (optionalHeaderOffset + peHeader.sizeOfOptionalHeader)
                peHeader.numberOfSections file
              let a5 := { a4 with sections := sections }
              let imports :=
                match optionalHeader with
                | some oh =>
                  match oh.dataDirectories[1]? with
                  | some dd => if 0 < dd.size then parseImports file buffer dd sections else []
                  | none => []
                | none => []
              .ok { a5 with
                imports := imports
                entropy := calculateEntropy buffer
                packerSignatures := detectPackers buffer sections
                suspiciousStrings := extractSuspiciousStrings matcher buffer }

/-- The `try` block applied to the buffered first
`min(fileSize, 1 MiB)` bytes. -/
noncomputable def analyzeSteps (matcher : Matcher) (file : Buffer) :
    Except (PEAnalysis × String) PEAnalysis :=
  analyzeStepsB matcher (headerBuffer file) file

/-- `analyzePEFile` from the source: the catch clause turns a thrown
exception into the partially filled record with its `error` field set. -/
noncomputable def analyzePEFile (matcher : Matcher) (file : Buffer) : PEAnalysis :=
  match analyzeSteps matcher file with
  | .ok a => a
  | .error pe => { pe.1 with error := some pe.2 }

-- ============================================================================
-- HELPER LEMMAS
-- ============================================================================

/-- The specification's description of the resolver: the first section in
table order whose half-open interval contains the RVA wins, with sentinel
0 when none does. -/
def rvaToFileOffsetSpec (rva : Nat) (sections : List SectionHeader) : Nat :=
  match sections.find? (fun s =>
      decide (s.virtualAddress ≤ rva ∧ rva < s.virtualAddress + s.virtualSize)) with
  | some s => s.pointerToRawData + (rva - s.virtualAddress)
  | none => 0

/-- A valid image in the sense of the specification: positive virtual
sizes and pairwise disjoint virtual intervals. -/
def validImage (sections : List SectionHeader) : Prop :=
  (∀ s ∈ sections, 0 < s.virtualSize) ∧
  sections.Pairwise (fun a b =>
    a.virtualAddress + a.virtualSize ≤ b.virtualAddress ∨
    b.virtualAddress + b.virtualSize ≤ a.virtualAddress)

theorem setAdd_mem (acc : List String) (y x : String) (hx : x ∈ acc) :
    x ∈ setAdd acc y := by
  unfold setAdd
  split
  · exact hx
  · exact List.mem_append_left _ hx

theorem setAdd_self (acc : List String) (y : String) : y ∈ setAdd acc y := by
  unfold setAdd
  split
  · assumption
  · simp

theorem setAdd_nodup (acc : List String) (y : String) (h : acc.Nodup) :
    (setAdd acc y).Nodup := by
  unfold setAdd
  split
  · exact h
  · simp_all [List.nodup_append]

theorem foldl_mem_mono {β : Type} (f : List String → β → List String)
    (hf : ∀ acc y x, x ∈ acc → x ∈ f acc y) (l : List β) :
    ∀ (acc : List String) (x : String), x ∈ acc → x ∈ l.foldl f acc := by
  induction l with
  | nil => intro acc x hx; exact hx
  | cons b t ih => intro acc x hx; exact ih (f acc b) x (hf acc b x hx)

theorem foldl_nodup {β : Type} (f : List String → β → List String)
    (hf : ∀ acc y, acc.Nodup → (f acc y).Nodup) (l : List β) :
    ∀ acc : List String, acc.Nodup → (l.foldl f acc).Nodup := by
  induction l with
  | nil => intro acc h; exact h
  | cons b t ih => intro acc h; exact ih (f acc b) (hf acc b h)

theorem foldl_id {β : Type} (f : List String → β → List String) (l : List β)
    (hf : ∀ y ∈ l, ∀ acc, f acc y = acc) :
    ∀ acc : List String, l.foldl f acc = acc := by
  induction l with
  | nil => intro acc; rfl
  | cons b t ih =>
    intro acc
    rw [List.foldl_cons, hf b (by simp)]
    exact ih (fun y hy acc => hf y (by simp [hy]) acc) acc

theorem checkSectionName_mem (acc : List String) (name : String) (x : String)
    (hx : x ∈ acc) : x ∈ checkSectionName acc name := by
  unfold checkSectionName
  dsimp only
  repeat' split
  all_goals (repeat' apply setAdd_mem)
  all_goals exact hx

theorem checkSectionName_nodup (acc : List String) (name : String)
    (h : acc.Nodup) : (checkSectionName acc name).Nodup := by
  unfold checkSectionName
  dsimp only
  repeat' split
  all_goals (repeat' apply setAdd_nodup)
  all_goals exact h

-- ============================================================================
-- CLAIM C4: the RVA resolver
-- ============================================================================

/-- C4: the RVA resolver is a pure function returning
`pointerToRawData + (rva - virtualAddress)` of the first section in table
order whose half-open interval `[virtualAddress, virtualAddress + virtualSize)`
contains the RVA, and the sentinel 0 when no section's interval contains
it. -/
theorem c4_rva_resolver (rva : Nat) (sections : List SectionHeader) :
    rvaToFileOffset rva sections = rvaToFileOffsetSpec rva sections := by
  induction sections with
  | nil => rfl
  | cons s rest ih =>
    by_cases hp : s.virtualAddress ≤ rva ∧ rva < s.virtualAddress + s.virtualSize
    · simp [rvaToFileOffset, rvaToFileOffsetSpec, List.find?_cons_of_pos, hp]
    · rw [rvaToFileOffset, if_neg hp, ih]
      unfold rvaToFileOffsetSpec
      rw [List.find?_cons_of_neg]
      simpa using hp

-- ============================================================================
-- CLAIM C5: round-trip at section boundaries
-- ============================================================================

/-- C5: on a valid image (positive virtual sizes, pairwise disjoint
virtual intervals), resolving any section's `virtualAddress` yields
exactly that section's `pointerToRawData`. -/
theorem c5_section_roundtrip (sections : List SectionHeader)
    (hval : validImage sections) :
    ∀ s ∈ sections, rvaToFileOffset s.virtualAddress sections = s.pointerToRawData := by
  obtain ⟨hpos, hdisj⟩ := hval
  induction sections with
  | nil => intro s hs; cases hs
  | cons a rest ih =>
    intro s hs
    rcases List.mem_cons.1 hs with rfl | hmem
    · have hc : s.virtualAddress ≤ s.virtualAddress ∧
          s.virtualAddress < s.virtualAddress + s.virtualSize := by
        have := hpos s (by simp)
        omega
      rw [rvaToFileOffset, if_pos hc, Nat.sub_self, Nat.add_zero]
    · have hrel := (List.pairwise_cons.1 hdisj).1 s hmem
      have hsv : 0 < s.virtualSize := hpos s (by simp [hmem])
      have hnot : ¬ (a.virtualAddress ≤ s.virtualAddress ∧
          s.virtualAddress < a.virtualAddress + a.virtualSize) := by
        rcases hrel with h1 | h2 <;> omega
      rw [rvaToFileOffset, if_neg hnot]
      exact ih (fun t ht => hpos t (List.mem_cons_of_mem _ ht))
        (List.pairwise_cons.1 hdisj).2 s hmem

/-- Witness for C5 at a concrete two-section image. -/
def witSectionA : SectionHeader :=
  { name := ".text"
    virtualSize := 0x1000
    virtualAddress := 0x1000
    sizeOfRawData := 0x1000
    pointerToRawData := 0x400
    characteristics := []
    characteristicsRaw := 0
    entropy := 0 }

def witSectionB : SectionHeader :=
  { name := ".data"
    virtualSize := 0x800
    virtualAddress := 0x2000
    sizeOfRawData := 0x800
    pointerToRawData := 0x1400
    characteristics := []
    characteristicsRaw := 0
    entropy := 0 }

theorem c5_witness :
    rvaToFileOffset witSectionB.virtualAddress [witSectionA, witSectionB] =
      witSectionB.pointerToRawData :=
  c5_section_roundtrip [witSectionA, witSectionB]
    ⟨by decide, by decide⟩ witSectionB (by simp)

-- ============================================================================
-- CLAIM C8: packer detection
-- ============================================================================

/-- C8: a buffer containing the byte sequence of the ASCII tag UPX0
anywhere yields a packer list containing UPX; the packer list never
contains duplicates; and a buffer matching no table signature, together
with sections none of whose names contains one of the five packer name
fragments (case-insensitively), yields the empty list, not an error. -/
theorem c8_detect_packers (buffer : Buffer) (sections : List SectionHeader) :
    (infixCheck (strBytes "UPX0") (bytesOf buffer) = true →
      "UPX" ∈ detectPackers buffer sections) ∧
    (detectPackers buffer sections).Nodup ∧
    ((∀ sig ∈ PACKER_SIGNATURES, infixCheck (strBytes sig.2) (bytesOf buffer) = false) →
     (∀ s ∈ sections,
        infixCheck "upx".toList (s.name.toList.map Char.toLower) = false ∧
        infixCheck "aspack".toList (s.name.toList.map Char.toLower) = false ∧
        infixCheck "vmp".toList (s.name.toList.map Char.toLower) = false ∧
        infixCheck "themida".toList (s.name.toList.map Char.toLower) = false ∧
        infixCheck "enigma".toList (s.name.toList.map Char.toLower) = false) →
      detectPackers buffer sections = []) := by
  refine ⟨?_, ?_, ?_⟩
  · intro hupx
    unfold detectPackers
    apply foldl_mem_mono _ (fun acc sec x hx => checkSectionName_mem acc sec.name x hx)
    show "UPX" ∈ List.foldl _ [] PACKER_SIGNATURES
    rw [show PACKER_SIGNATURES = ("UPX", "UPX0") :: PACKER_SIGNATURES.tail from rfl]
    rw [List.foldl_cons]
    apply foldl_mem_mono
    · intro acc y x hx
      dsimp only
      split
      · exact setAdd_mem _ _ _ hx
      · exact hx
    · simp only [hupx, if_pos]
      exact setAdd_self [] "UPX"
  · unfold detectPackers
    apply foldl_nodup _ (fun acc sec h => checkSectionName_nodup acc sec.name h)
    apply foldl_nodup
    · intro acc y h
      dsimp only
      split
      · exact setAdd_nodup _ _ h
      · exact h
    · exact List.nodup_nil
  · intro hsigs hsections
    unfold detectPackers
    rw [foldl_id]
    · rw [foldl_id]
      intro sig hsig acc
      dsimp only
      rw [if_neg]
      simp [hsigs sig hsig]
    · intro sec hsec acc
      have h5 := hsections sec hsec
      unfold checkSectionName
      dsimp only
      rw [if_neg (fun hc => Bool.noConfusion (h5.1.symm.trans hc)),
          if_neg (fun hc => Bool.noConfusion (h5.2.1.symm.trans hc)),
          if_neg (fun hc => Bool.noConfusion (h5.2.2.1.symm.trans hc)),
          if_neg (fun hc => Bool.noConfusion (h5.2.2.2.1.symm.trans hc)),
          if_neg (fun hc => Bool.noConfusion (h5.2.2.2.2.symm.trans hc))]

/-- Witness for C8: a buffer embedding UPX0 reports UPX, and an
unrelated buffer with no packer-named sections reports the empty set. -/
theorem c8_witness :
    "UPX" ∈ detectPackers (bufOfList (strBytes "abcUPX0def")) [] ∧
    detectPackers (bufOfList (strBytes "zzz")) [] = [] :=
  ⟨(c8_detect_packers (bufOfList (strBytes "abcUPX0def")) []).1 (by decide),
   (c8_detect_packers (bufOfList (strBytes "zzz")) []).2.2 (by decide)
     (by intro s hs; cases hs)⟩

-- ============================================================================
-- CLAIM C7: thunk processing in the import walker
-- ============================================================================

/-- C7: on a non-zero thunk value within bounds and below the per-DLL
cap, the walker emits the string Ordinal n, with n the low 16 bits, when
the top bit is set (in particular thunk 0x80000007 emits Ordinal 7);
otherwise it treats the thunk as an RVA to a hint+name record, skips the
two-byte hint, and reads the bounded NUL-terminated name that follows,
emitting it when its length lies in (0, 200). -/
theorem c7_thunk_step (file : Buffer) (sections : List SectionHeader)
    (tb : Buffer) (pos : Nat) (fns : List String) (log : List Nat)
    (hin : pos + 4 ≤ tb.size) (hcap : fns.length < 100)
    (hnz : readUInt32LE tb pos ≠ 0) :
    (2147483648 ≤ readUInt32LE tb pos →
      walkThunksGo file sections tb pos fns log =
        walkThunksGo file sections tb (pos + 4)
          (fns ++ ["Ordinal " ++ toString (readUInt32LE tb pos % 65536)]) log) ∧
    (readUInt32LE tb pos = 2147483655 →
      walkThunksGo file sections tb pos fns log =
        walkThunksGo file sections tb (pos + 4) (fns ++ ["Ordinal 7"]) log) ∧
    (readUInt32LE tb pos < 2147483648 →
      0 < rvaToFileOffset (readUInt32LE tb pos) sections →
      walkThunksGo file sections tb pos fns log =
        (if 0 < (readNullTerminatedString (bufDrop (readSyncAt file
              (rvaToFileOffset (readUInt32LE tb pos) sections) 256) 2)).length ∧
            (readNullTerminatedString (bufDrop (readSyncAt file
              (rvaToFileOffset (readUInt32LE tb pos) sections) 256) 2)).length < 200 then
          walkThunksGo file sections tb (pos + 4)
            (fns ++ [readNullTerminatedString (bufDrop (readSyncAt file
              (rvaToFileOffset (readUInt32LE tb pos) sections) 256) 2)])
            (log ++ [rvaToFileOffset (readUInt32LE tb pos) sections])
        else
          walkThunksGo file sections tb (pos + 4) fns
            (log ++ [rvaToFileOffset (readUInt32LE tb pos) sections]))) := by
  refine ⟨?_, ?_, ?_⟩
  · intro hhi
    conv_lhs => rw [walkThunksGo]
    rw [dif_pos ⟨hin, hcap⟩]
    dsimp only
    rw [if_neg hnz, if_pos hhi]
  · intro hv
    conv_lhs => rw [walkThunksGo]
    rw [dif_pos ⟨hin, hcap⟩]
    dsimp only
    rw [if_neg hnz, if_pos (by omega : 2147483648 ≤ readUInt32LE tb pos), hv]
    rfl
  · intro hlo hres
    conv_lhs => rw [walkThunksGo]
    rw [dif_pos ⟨hin, hcap⟩]
    dsimp only
    rw [if_neg hnz, if_neg (by omega : ¬ 2147483648 ≤ readUInt32LE tb pos),
        if_pos hres]

/-- Witness for C7: the ordinal thunk 0x80000007 emits Ordinal 7. -/
theorem c7_witness :
    walkThunksGo (bufOfList []) [] (bufOfList [7, 0, 0, 128]) 0 [] [] =
      walkThunksGo (bufOfList []) [] (bufOfList [7, 0, 0, 128]) 4 ["Ordinal 7"] [] :=
  (c7_thunk_step (bufOfList []) [] (bufOfList [7, 0, 0, 128]) 0 [] []
    (by decide) (by decide) (by decide)).2.1 (by decide)

-- ============================================================================
-- CLAIM C2: structural errors
-- ============================================================================

/-- A 64-byte file starting with MZ whose `e_lfanew` is 100, so that
`peHeaderOffset + 4` exceeds the buffered bytes. -/
def fileC2 : Buffer :=
  { size := 64
    data := fun i => if i = 0 then 77 else if i = 1 then 90
            else if i = 60 then 100 else 0 }

/-- Counterexample to C2 as stated: on the PE-header-offset structural
failure the result carries the corresponding error message, yet its
`dosHeader` field is populated rather than absent. -/
theorem c2_counterexample :
    (analyzePEFile trivMatcher fileC2).error = some msgPEOffsetBeyond ∧
    (analyzePEFile trivMatcher fileC2).dosHeader.isSome = true := by
  constructor <;> decide

/-- C2 as amended: each of the four structural checks is terminal with
its human-readable message, `peHeader` and `optionalHeader` stay absent
and `sections`/`imports` stay empty in all four cases, and `dosHeader`
is absent in the first two cases but already populated in the last two
(the source assigns it before checking the PE offset and signature). -/
theorem c2_amended (matcher : Matcher) (file : Buffer) :
    ((headerBuffer file).size < 64 →
      analyzePEFile matcher file =
        { baseAnalysis file with error := some msgTooSmall }) ∧
    (∀ dh, 64 ≤ (headerBuffer file).size →
      parseDOSHeader (headerBuffer file) = .ok dh → dh.magic ≠ "MZ" →
      analyzePEFile matcher file =
        { baseAnalysis file with error := some msgBadDOS }) ∧
    (∀ dh, 64 ≤ (headerBuffer file).size →
      parseDOSHeader (headerBuffer file) = .ok dh → dh.magic = "MZ" →
      (headerBuffer file).size < dh.peHeaderOffset + 4 →
      analyzePEFile matcher file =
        { baseAnalysis file with dosHeader := some dh,
                                 error := some msgPEOffsetBeyond }) ∧
    (∀ dh, 64 ≤ (headerBuffer file).size →
      parseDOSHeader (headerBuffer file) = .ok dh → dh.magic = "MZ" →
      dh.peHeaderOffset + 4 ≤ (headerBuffer file).size →
      bufToString (headerBuffer file) dh.peHeaderOffset (dh.peHeaderOffset + 4) ≠ peSigStr →
      analyzePEFile matcher file =
        { baseAnalysis file with dosHeader := some dh,
                                 error := some msgBadPESig }) := by
  refine ⟨?_, ?_, ?_, ?_⟩
  · intro h64
    unfold analyzePEFile analyzeSteps analyzeStepsB
    dsimp only
    rw [if_pos h64]
  · intro dh h64 hdos hmz
    unfold analyzePEFile analyzeSteps analyzeStepsB
    dsimp only
    rw [if_neg (by omega : ¬ (headerBuffer file).size < 64), hdos]
    dsimp only
    rw [if_pos hmz]
  · intro dh h64 hdos hmz hlt
    unfold analyzePEFile analyzeSteps analyzeStepsB
    dsimp only
    rw [if_neg (by omega : ¬ (headerBuffer file).size < 64), hdos]
    dsimp only
    rw [if_neg (by simp [hmz]), if_pos hlt]
  · intro dh h64 hdos hmz hle hsig
    unfold analyzePEFile analyzeSteps analyzeStepsB
    dsimp only
    rw [if_neg (by omega : ¬ (headerBuffer file).size < 64), hdos]
    dsimp only
    rw [if_neg (by simp [hmz]),
        if_neg (by omega : ¬ (headerBuffer file).size < dh.peHeaderOffset + 4),
        if_pos hsig]

/-- Witness for C2 as amended, at the empty file. -/
theorem c2_amended_witness :
    analyzePEFile trivMatcher (bufOfList []) =
      { baseAnalysis (bufOfList []) with error := some msgTooSmall } :=
  (c2_amended trivMatcher (bufOfList [])).1 (by decide)

-- ============================================================================
-- CLAIM C3: resource caps
-- ============================================================================

/-- A well-formed header declaring 1000 sections (`numberOfSections` is
the 16-bit little-endian 0x03E8 at offset 70), no optional header, and a
buffer large enough for all 1000 forty-byte section records. -/
def fileC3 : Buffer :=
  { size := 40088
    data := fun i => if i = 0 then 77 else if i = 1 then 90
            else if i = 60 then 64
            else if i = 64 then 80 else if i = 65 then 69
            else if i = 70 then 232 else if i = 71 then 3
            else 0 }

set_option maxRecDepth 100000 in
/-- Counterexample to C3 as stated: the analysis of `fileC3` returns
1000 section records, so the section list is not capped at a few
hundred. -/
theorem c3_counterexample :
    400 < (analyzePEFile trivMatcher fileC3).sections.length := by decide

theorem parseSectionHeadersGo_length_le (buffer file : Buffer) :
    ∀ (n offset : Nat),
      (parseSectionHeadersGo buffer file offset n).length ≤ (buffer.size - offset) / 40 := by
  intro n
  induction n with
  | zero => intro offset; simp [parseSectionHeadersGo]
  | succ n ih =>
    intro offset
    rw [parseSectionHeadersGo]
    split
    · simp
    · have h40 : offset + 40 ≤ buffer.size := by omega
      have := ih (offset + 40)
      simp only [List.length_cons]
      omega

theorem parseImportsGo_length_le (file : Buffer) (sections : List SectionHeader) :
    ∀ (N : Nat) (ib : Buffer) (offset : Nat) (imports : List ImportEntry)
      (log : List Nat), ib.size - offset ≤ N → imports.length ≤ 200 →
      (parseImportsGo file sections ib offset imports log).1.length ≤ 200 := by
  intro N
  induction N with
  | zero =>
    intro ib offset imports log hN hlen
    rw [parseImportsGo]
    rw [dif_neg (by omega : ¬ (offset + 20 ≤ ib.size ∧ imports.length < 200))]
    exact hlen
  | succ N ih =>
    intro ib offset imports log hN hlen
    rw [parseImportsGo]
    by_cases h : offset + 20 ≤ ib.size ∧ imports.length < 200
    · rw [dif_pos h]
      dsimp only
      split
      · exact hlen
      · split
        · exact ih ib (offset + 20) _ _ (by omega) (by simp; omega)
        · exact ih ib (offset + 20) imports log (by omega) hlen
    · rw [dif_neg h]
      exact hlen

theorem parseImports_length_le (file headerBuf : Buffer) (importDir : DataDirectory)
    (sections : List SectionHeader) :
    (parseImports file headerBuf importDir sections).length ≤ 200 := by
  unfold parseImports parseImportsLog
  split
  · simp
  · dsimp only
    split
    · simp
    · exact parseImportsGo_length_le file sections _ _ 0 [] _ (le_refl _) (by simp)

/-- C3 as amended: the import list is capped at 200 entries, and the
section list is bounded by the buffered region — at most
1048576 / 40 = 26214 records can ever be parsed from the at-most-1-MiB
header buffer (there is no few-hundred cap); parsing always terminates
with whatever sections fit in the buffer. -/
theorem c3_amended (matcher : Matcher) (file : Buffer) :
    (analyzePEFile matcher file).imports.length ≤ 200 ∧
    (analyzePEFile matcher file).sections.length ≤ 26214 := by
  have hsec : ∀ off n,
      (parseSectionHeadersGo (headerBuffer file) file off n).length ≤ 26214 := by
    intro off n
    have h1 := parseSectionHeadersGo_length_le (headerBuffer file) file n off
    have hbuf : (headerBuffer file).size ≤ 1048576 := by
      simp [headerBuffer]
    have h2 : ((headerBuffer file).size - off) / 40 ≤ 1048576 / 40 :=
      Nat.div_le_div_right (by omega)
    omega
  unfold analyzePEFile
  cases hr : analyzeSteps matcher file with
  | error pe =>
    unfold analyzeSteps analyzeStepsB at hr
    dsimp only at hr
    repeat' split at hr
    all_goals first
      | (injection hr with h; subst h; dsimp only;
          refine ⟨?_, ?_⟩ <;>
            first
            | simp [baseAnalysis]
            | apply parseImports_length_le
            | exact hsec _ _)
      | injection hr
  | ok a =>
    unfold analyzeSteps analyzeStepsB at hr
    dsimp only at hr
    repeat' split at hr
    all_goals first
      | (injection hr with h; subst h; dsimp only;
          refine ⟨?_, ?_⟩ <;>
            first
            | simp [baseAnalysis]
            | apply parseImports_length_le
            | exact hsec _ _)
      | injection hr

-- ============================================================================
-- CLAIM C9: RVA-derived read offsets
-- ============================================================================

theorem walkThunksGo_log_pos (file : Buffer) (sections : List SectionHeader)
    (tb : Buffer) :
    ∀ (N pos : Nat) (fns : List String) (log : List Nat),
      tb.size - pos ≤ N → (∀ o ∈ log, 0 < o) →
      ∀ o ∈ (walkThunksGo file sections tb pos fns log).2, 0 < o := by
  intro N
  induction N with
  | zero =>
    intro pos fns log hN hlog
    rw [walkThunksGo, dif_neg (by omega : ¬ (pos + 4 ≤ tb.size ∧ fns.length < 100))]
    exact hlog
  | succ N ih =>
    intro pos fns log hN hlog
    rw [walkThunksGo]
    by_cases h : pos + 4 ≤ tb.size ∧ fns.length < 100
    · rw [dif_pos h]
      dsimp only
      split
      · exact hlog
      · split
        · exact ih (pos + 4) _ log (by omega) hlog
        · split
          · split
            · refine ih (pos + 4) _ _ (by omega) ?_
              intro o ho
              rcases List.mem_append.1 ho with h1 | h2
              · exact hlog o h1
              · simp at h2
                omega
            · refine ih (pos + 4) _ _ (by omega) ?_
              intro o ho
              rcases List.mem_append.1 ho with h1 | h2
              · exact hlog o h1
              · simp at h2
                omega
          · exact ih (pos + 4) _ log (by omega) hlog
    · rw [dif_neg h]
      exact hlog

theorem parseImportsGo_log_pos (file : Buffer) (sections : List SectionHeader)
    (ib : Buffer) :
    ∀ (N offset : Nat) (imports : List ImportEntry) (log : List Nat),
      ib.size - offset ≤ N → (∀ o ∈ log, 0 < o) →
      ∀ o ∈ (parseImportsGo file sections ib offset imports log).2, 0 < o := by
  intro N
  induction N with
  | zero =>
    intro offset imports log hN hlog
    rw [parseImportsGo,
        dif_neg (by omega : ¬ (offset + 20 ≤ ib.size ∧ imports.length < 200))]
    exact hlog
  | succ N ih =>
    intro offset imports log hN hlog
    rw [parseImportsGo]
    by_cases h : offset + 20 ≤ ib.size ∧ imports.length < 200
    · rw [dif_pos h]
      dsimp only
      split
      · exact hlog
      · split
        · refine ih (offset + 20) _ _ (by omega) ?_
          repeat' split
          all_goals first
            | (refine walkThunksGo_log_pos file sections _ _ 0 [] _ (le_refl _) ?_
               intro o ho
               rcases List.mem_append.1 ho with h1 | h2
               · exact hlog o h1
               · simp at h2
                 rcases h2 with rfl | rfl <;> omega)
            | (intro o ho
               rcases List.mem_append.1 ho with h1 | h2
               · exact hlog o h1
               · simp at h2
                 subst h2
                 omega)
        · exact ih (offset + 20) imports log (by omega) hlog
    · rw [dif_neg h]
      exact hlog

/-- A file of eight zero bytes together with a section table whose only
section maps RVA 0x1000 to raw offset 100000, far beyond the file. -/
def fileC9 : Buffer :=
  bufOfList [0, 0, 0, 0, 0, 0, 0, 0]

def sectionC9 : SectionHeader :=
  { name := ".x"
    virtualSize := 4096
    virtualAddress := 4096
    sizeOfRawData := 0
    pointerToRawData := 100000
    characteristics := []
    characteristicsRaw := 0
    entropy := 0 }

def ddC9 : DataDirectory :=
  { name := "Import Table", virtualAddress := 4096, size := 20 }

theorem c9Log_eval :
    parseImportsLog fileC9 fileC9 ddC9 [sectionC9] = ([], [100000]) := by
  unfold parseImportsLog
  rw [if_neg (by decide)]
  dsimp only
  rw [if_neg (by decide)]
  rw [parseImportsGo, dif_pos (by decide)]
  dsimp only
  rw [if_pos (by decide)]
  decide

/-- Counterexample to C9 as stated: the import walker attempts a read at
the RVA-derived offset 100000 of an eight-byte file — offsets are never
validated against the file size. -/
theorem c9_counterexample :
    ∃ off ∈ (parseImportsLog fileC9 fileC9 ddC9 [sectionC9]).2,
      ¬ off < fileC9.size := by
  refine ⟨100000, ?_, by decide⟩
  rw [c9Log_eval]
  simp

/-- C9 as amended: every RVA-derived file offset is checked to be
non-zero (the resolver's not-found sentinel) before a read is attempted
there, but it is never validated against the file size; a read beyond
the end of file simply yields zero-filled bytes. -/
theorem c9_amended (file headerBuf : Buffer) (importDir : DataDirectory)
    (sections : List SectionHeader) :
    ∀ off ∈ (parseImportsLog file headerBuf importDir sections).2, 0 < off := by
  unfold parseImportsLog
  split
  · simp
  · dsimp only
    split
    · simp
    · next hoff =>
      refine parseImportsGo_log_pos file sections _ _ 0 [] _ (le_refl _) ?_
      intro o ho
      simp at ho
      omega

/-- Witness for C9 as amended: the offset actually logged in the
concrete run above is positive. -/
theorem c9_witness :
    100000 ∈ (parseImportsLog fileC9 fileC9 ddC9 [sectionC9]).2 ∧ 0 < 100000 := by
  have hm : 100000 ∈ (parseImportsLog fileC9 fileC9 ddC9 [sectionC9]).2 := by
    rw [c9Log_eval]; simp
  exact ⟨hm, c9_amended fileC9 fileC9 ddC9 [sectionC9] 100000 hm⟩

-- ============================================================================
-- CLAIM C6: entropy bounds
-- ============================================================================

set_option maxRecDepth 4000

theorem entropyRaw_nonneg (n : ℕ) (cnt : Fin 256 → ℕ) (hle : ∀ v, cnt v ≤ n) :
    0 ≤ ∑ v : Fin 256, (if 0 < cnt v then
      -(((cnt v : ℝ)/n) * Real.logb 2 ((cnt v : ℝ)/n)) else 0) := by
  apply Finset.sum_nonneg
  intro v _
  split
  · next hv =>
    have hn : 0 < n := lt_of_lt_of_le hv (hle v)
    have hp0 : (0:ℝ) < (cnt v : ℝ)/n :=
      div_pos (Nat.cast_pos.2 hv) (Nat.cast_pos.2 hn)
    have hp1 : ((cnt v : ℝ))/n ≤ 1 := by
      rw [div_le_one (Nat.cast_pos.2 hn)]
      exact_mod_cast hle v
    have hlb := Real.logb_nonpos (b := 2) (by norm_num) hp0.le hp1
    nlinarith
  · exact le_refl 0

theorem entropyRaw_le_eight (n : ℕ) (hn : 0 < n) (cnt : Fin 256 → ℕ)
    (hsum : ∑ v : Fin 256, cnt v = n) :
    ∑ v : Fin 256, (if 0 < cnt v then
      -(((cnt v : ℝ)/n) * Real.logb 2 ((cnt v : ℝ)/n)) else 0) ≤ 8 := by
  obtain ⟨S, hS⟩ : ∃ S : Finset (Fin 256),
      S = Finset.univ.filter (fun v => 0 < cnt v) := ⟨_, rfl⟩
  have hnR : (0:ℝ) < (n:ℝ) := Nat.cast_pos.2 hn
  have hsumS : ∑ v in S, cnt v = n := by
    rw [hS, Finset.sum_filter_of_ne]
    · exact hsum
    · intro v _ hv
      omega
  have hw1 : ∑ v in S, ((cnt v : ℝ)/n) = 1 := by
    rw [← Finset.sum_div, div_eq_one_iff_eq hnR.ne']
    exact_mod_cast hsumS
  have hrw : (∑ v : Fin 256, if 0 < cnt v then
        -(((cnt v:ℝ)/n) * Real.logb 2 ((cnt v:ℝ)/n)) else 0)
      = ∑ v in S, ((cnt v:ℝ)/n) * Real.logb 2 (((cnt v:ℝ)/n)⁻¹) := by
    rw [hS, Finset.sum_filter]
    apply Finset.sum_congr rfl
    intro v _
    split
    · rw [Real.logb_inv]; ring
    · rfl
  rw [hrw]
  have hconc : ConcaveOn ℝ (Set.Ioi (0:ℝ)) (Real.logb 2) := by
    have h0 : Real.logb 2 = fun x => (Real.log 2)⁻¹ • Real.log x := by
      funext x
      simp [Real.logb, div_eq_inv_mul]
    rw [h0]
    exact strictConcaveOn_log_Ioi.concaveOn.smul
      (inv_nonneg.2 (Real.log_nonneg (by norm_num)))
  have h0w : ∀ v ∈ S, (0:ℝ) ≤ (cnt v:ℝ)/n :=
    fun v _ => div_nonneg (Nat.cast_nonneg _) (Nat.cast_nonneg _)
  have hposS : ∀ v ∈ S, (0:ℝ) < (cnt v:ℝ)/n := by
    intro v hv
    rw [hS] at hv
    exact div_pos (Nat.cast_pos.2 (Finset.mem_filter.1 hv).2) hnR
  have hmem : ∀ v ∈ S, ((cnt v:ℝ)/n)⁻¹ ∈ Set.Ioi (0:ℝ) :=
    fun v hv => Set.mem_Ioi.2 (inv_pos.2 (hposS v hv))
  have hjen := hconc.le_map_sum h0w hw1 hmem
  have hterm : ∀ v ∈ S, ((cnt v:ℝ)/n) • (((cnt v:ℝ)/n)⁻¹) = 1 := by
    intro v hv
    rw [smul_eq_mul, mul_inv_cancel₀ (hposS v hv).ne']
  have hx : ∑ v in S, ((cnt v:ℝ)/n) • (((cnt v:ℝ)/n)⁻¹) = (S.card : ℝ) := by
    rw [Finset.sum_congr rfl hterm, Finset.sum_const, nsmul_eq_mul, mul_one]
  have hSne : 0 < S.card := by
    rcases Finset.eq_empty_or_nonempty S with hemp | hne
    · exfalso
      have h0 : ∑ v : Fin 256, cnt v = 0 := by
        apply Finset.sum_eq_zero
        intro v _
        by_contra hvne
        have hvS : v ∈ S := by
          rw [hS]
          exact Finset.mem_filter.2 ⟨Finset.mem_univ v, by omega⟩
        rw [hemp] at hvS
        exact absurd hvS (Finset.not_mem_empty v)
      omega
    · exact Finset.card_pos.2 hne
  have hcard256 : S.card ≤ 256 := by
    rw [hS]
    calc (Finset.univ.filter (fun v => 0 < cnt v)).card
        ≤ (Finset.univ : Finset (Fin 256)).card := Finset.card_filter_le _ _
      _ = 256 := by simp
  calc ∑ v in S, ((cnt v:ℝ)/n) * Real.logb 2 (((cnt v:ℝ)/n)⁻¹)
      = ∑ v in S, ((cnt v:ℝ)/n) • Real.logb 2 (((cnt v:ℝ)/n)⁻¹) := by
        simp [smul_eq_mul]
    _ ≤ Real.logb 2 (∑ v in S, ((cnt v:ℝ)/n) • (((cnt v:ℝ)/n)⁻¹)) := hjen
    _ = Real.logb 2 (S.card) := by rw [hx]
    _ ≤ Real.logb 2 256 := Real.logb_le_logb_of_le (by norm_num)
        (Nat.cast_pos.2 hSne) (by exact_mod_cast hcard256)
    _ = 8 := by
        rw [show (256:ℝ) = 2 ^ (8:ℕ) by norm_num, Real.logb_pow,
            Real.logb_self_eq_one (by norm_num)]
        norm_num

theorem sum_count_fin (l : List (Fin 256)) :
    ∑ v : Fin 256, l.count v = l.length := by
  induction l with
  | nil => simp
  | cons a t ih =>
    simp only [List.count_cons, List.length_cons]
    rw [Finset.sum_add_distrib, ih]
    have hone : (∑ x : Fin 256, if a == x then 1 else 0) = 1 := by
      rw [Finset.sum_eq_single a]
      · simp
      · intro v _ hv
        have hva : ¬ (a = v) := fun h => hv h.symm
        simp [beq_iff_eq, hva]
      · intro ha
        exact absurd (Finset.mem_univ a) ha
    rw [hone]

theorem roundTo2_bounds (x : ℝ) (h0 : 0 ≤ x) (h8 : x ≤ 8) :
    0 ≤ ((round (x * 100) : ℤ) : ℝ)/100 ∧ ((round (x * 100) : ℤ) : ℝ)/100 ≤ 8 := by
  have hlow : (0:ℤ) ≤ round (x * 100) := by
    rw [round_eq]
    exact Int.le_floor.2 (by push_cast; linarith)
  have hhigh : round (x * 100) ≤ 800 := by
    rw [round_eq]
    have hf : (⌊x * 100 + 1/2⌋ : ℤ) ≤ ⌊(800:ℝ) + 1/2⌋ :=
      Int.floor_le_floor (by linarith)
    have h800 : (⌊(800:ℝ) + 1/2⌋ : ℤ) = 800 := by
      rw [Int.floor_eq_iff]
      norm_num
    omega
  constructor
  · apply div_nonneg _ (by norm_num)
    exact_mod_cast hlow
  · rw [div_le_iff₀ (by norm_num : (0:ℝ) < 100)]
    calc ((round (x * 100) : ℤ) : ℝ) ≤ 800 := by exact_mod_cast hhigh
      _ = 8 * 100 := by norm_num

/-- C6: `calculateEntropy` always lies in [0, 8]; it is 0 on the empty
buffer, and 0 on every non-empty buffer all of whose bytes are one
repeated value, of any length. -/
theorem c6_entropy (b : Buffer) :
    (0 ≤ calculateEntropy b ∧ calculateEntropy b ≤ 8) ∧
    (b.size = 0 → calculateEntropy b = 0) ∧
    (∀ v0 : Fin 256, 0 < b.size → (∀ i, i < b.size → b.data i = v0) →
      calculateEntropy b = 0) := by
  have hlenb : (bytesOf b).length = b.size := by
    simp [bytesOf]
  refine ⟨?_, ?_, ?_⟩
  · unfold calculateEntropy
    by_cases h0 : b.size = 0
    · rw [if_pos h0]
      norm_num
    · rw [if_neg h0]
      dsimp only
      have hn : 0 < b.size := Nat.pos_of_ne_zero h0
      have hle : ∀ v, (bytesOf b).count v ≤ b.size := by
        intro v
        have := List.count_le_length v (bytesOf b)
        omega
      have hsum : ∑ v : Fin 256, (bytesOf b).count v = b.size := by
        rw [sum_count_fin, hlenb]
      exact roundTo2_bounds _
        (entropyRaw_nonneg b.size (fun v => (bytesOf b).count v) hle)
        (entropyRaw_le_eight b.size hn (fun v => (bytesOf b).count v) hsum)
  · intro h0
    unfold calculateEntropy
    rw [if_pos h0]
  · intro v0 hpos hall
    unfold calculateEntropy
    rw [if_neg (by omega)]
    dsimp only
    have hbytes : ∀ x ∈ bytesOf b, x = v0 := by
      intro x hx
      simp only [bytesOf, List.mem_map, List.mem_range] at hx
      obtain ⟨i, hi, rfl⟩ := hx
      exact hall i hi
    have hcv : (bytesOf b).count v0 = b.size := by
      rw [← hlenb]
      exact List.count_eq_length.2 (fun x hx => (hbytes x hx).symm)
    have hsum0 : (∑ v : Fin 256,
        if 0 < (bytesOf b).count v then
          -((((bytesOf b).count v : ℝ) / (b.size : ℝ)) *
            Real.logb 2 (((bytesOf b).count v : ℝ) / (b.size : ℝ)))
        else 0) = 0 := by
      apply Finset.sum_eq_zero
      intro w _
      by_cases hwv : w = v0
      · subst hwv
        rw [hcv, if_pos hpos,
            div_self (by exact_mod_cast hpos.ne' : (b.size:ℝ) ≠ 0)]
        simp [Real.logb_one]
      · have hzero : (bytesOf b).count w = 0 := by
          rw [List.count_eq_zero]
          intro hmem
          exact hwv (hbytes w hmem)
        rw [hzero]
        simp
    rw [hsum0]
    simp

/-- Witness for C6: a three-byte constant buffer has entropy 0. -/
theorem c6_witness : calculateEntropy (bufOfList [7, 7, 7]) = 0 :=
  (c6_entropy (bufOfList [7, 7, 7])).2.2 7 (by decide) (by
    intro i hi
    have hi3 : i < 3 := hi
    interval_cases i <;> rfl)

-- ============================================================================
-- CLAIM C10: dependence on the buffered prefix only
-- ============================================================================

/-- The three analysis outputs claimed to depend only on the buffered
prefix. -/
def projTriple (a : PEAnalysis) : ℝ × List String × List String :=
  (a.entropy, a.packerSignatures, a.suspiciousStrings)

/-- The same three outputs of a `try`-block result, before the catch
clause (which only sets `error`). -/
def stepsTriple (r : Except (PEAnalysis × String) PEAnalysis) :
    ℝ × List String × List String :=
  match r with
  | .ok a => projTriple a
  | .error pe => projTriple pe.1

theorem projTriple_analyzePEFile (matcher : Matcher) (file : Buffer) :
    projTriple (analyzePEFile matcher file) = stepsTriple (analyzeSteps matcher file) := by
  unfold analyzePEFile stepsTriple
  cases analyzeSteps matcher file with
  | ok a => rfl
  | error pe => rfl

/-- Section names (and all header-derived fields) come from the header
buffer alone; only the entropy field depends on the backing file. -/
theorem parseSectionHeadersGo_names (buffer fa fb : Buffer) :
    ∀ (n offset : Nat),
      (parseSectionHeadersGo buffer fa offset n).map (fun s => s.name) =
      (parseSectionHeadersGo buffer fb offset n).map (fun s => s.name) := by
  intro n
  induction n with
  | zero => intro offset; rfl
  | succ n ih =>
    intro offset
    rw [parseSectionHeadersGo, parseSectionHeadersGo]
    split
    · rfl
    · simp only [List.map_cons]
      rw [ih]

theorem foldl_checkSectionName_names :
    ∀ (s1 s2 : List SectionHeader) (init : List String),
      s1.map (fun s => s.name) = s2.map (fun s => s.name) →
      s1.foldl (fun acc sec => checkSectionName acc sec.name) init =
      s2.foldl (fun acc sec => checkSectionName acc sec.name) init := by
  intro s1
  induction s1 with
  | nil =>
    intro s2 init h
    have h2 : s2 = [] := by
      cases s2 with
      | nil => rfl
      | cons b t2 => simp at h
    subst h2
    rfl
  | cons a t ih =>
    intro s2 init h
    cases s2 with
    | nil => simp at h
    | cons b t2 =>
      simp only [List.map_cons, List.cons.injEq] at h
      rw [List.foldl_cons, List.foldl_cons, h.1]
      exact ih t2 _ h.2

/-- `detectPackers` looks at sections only through their names. -/
theorem detectPackers_congr (buffer : Buffer) (s1 s2 : List SectionHeader)
    (h : s1.map (fun s => s.name) = s2.map (fun s => s.name)) :
    detectPackers buffer s1 = detectPackers buffer s2 := by
  unfold detectPackers
  dsimp only
  exact foldl_checkSectionName_names s1 s2 _ h

theorem stepsTriple_buffer (matcher : Matcher) (buffer fa fb : Buffer) :
    stepsTriple (analyzeStepsB matcher buffer fa) =
    stepsTriple (analyzeStepsB matcher buffer fb) := by
  unfold analyzeStepsB
  dsimp only
  by_cases h64 : buffer.size < 64
  · rw [if_pos h64, if_pos h64]
    rfl
  · rw [if_neg h64, if_neg h64]
    cases hdos : parseDOSHeader buffer with
    | error e => rfl
    | ok dh =>
      dsimp only
      by_cases hmz : dh.magic ≠ "MZ"
      · rw [if_pos hmz, if_pos hmz]
        rfl
      · rw [if_neg hmz, if_neg hmz]
        by_cases hpo : buffer.size < dh.peHeaderOffset + 4
        · rw [if_pos hpo, if_pos hpo]
          rfl
        · rw [if_neg hpo, if_neg hpo]
          by_cases hsig : bufToString buffer dh.peHeaderOffset (dh.peHeaderOffset + 4) ≠ peSigStr
          · rw [if_pos hsig, if_pos hsig]
            rfl
          · rw [if_neg hsig, if_neg hsig]
            cases hpe : parsePEHeader buffer (dh.peHeaderOffset + 4) with
            | error e => rfl
            | ok ph =>
              dsimp only
              cases hopt : (if 0 < ph.sizeOfOptionalHeader then
                  Except.map some (parseOptionalHeader buffer
                    (dh.peHeaderOffset + 24) ph.sizeOfOptionalHeader)
                else .ok none) with
              | error e => rfl
              | ok oh =>
                dsimp only
                unfold stepsTriple projTriple
                dsimp only
                simp only [Prod.mk.injEq, true_and, and_true]
                exact detectPackers_congr buffer _ _
                  (parseSectionHeadersGo_names buffer fa fb _ _)

/-- C10: for two files of at least 1 MiB agreeing on their first 1 MiB,
the analysis produces identical overall entropy, packer signatures and
suspicious strings — these depend only on the buffered prefix. -/
theorem c10_prefix_determines (matcher : Matcher) (f1 f2 : Buffer)
    (h1 : 1048576 ≤ f1.size) (h2 : 1048576 ≤ f2.size)
    (hpre : ∀ i, i < 1048576 → f1.data i = f2.data i) :
    (analyzePEFile matcher f1).entropy = (analyzePEFile matcher f2).entropy ∧
    (analyzePEFile matcher f1).packerSignatures =
      (analyzePEFile matcher f2).packerSignatures ∧
    (analyzePEFile matcher f1).suspiciousStrings =
      (analyzePEFile matcher f2).suspiciousStrings := by
  have hbuf : headerBuffer f1 = headerBuffer f2 := by
    unfold headerBuffer
    rw [min_eq_right h1, min_eq_right h2]
    congr 1
    funext i
    by_cases hi : i < 1048576
    · rw [if_pos hi, if_pos hi, hpre i hi]
    · rw [if_neg hi, if_neg hi]
  have htrip : projTriple (analyzePEFile matcher f1) =
      projTriple (analyzePEFile matcher f2) := by
    rw [projTriple_analyzePEFile, projTriple_analyzePEFile]
    unfold analyzeSteps
    rw [hbuf]
    exact stepsTriple_buffer matcher (headerBuffer f2) f1 f2
  exact ⟨congrArg (fun t => t.1) htrip, congrArg (fun t => t.2.1) htrip,
         congrArg (fun t => t.2.2) htrip⟩

def fileC10a : Buffer :=
  { data := fun _ => 0, size := 1048576 }

def fileC10b : Buffer :=
  { data := fun i => if i < 1048576 then 0 else 1, size := 1048581 }

/-- Witness for C10 at two concrete files agreeing on the first 1 MiB. -/
theorem c10_witness :
    (analyzePEFile trivMatcher fileC10a).entropy =
      (analyzePEFile trivMatcher fileC10b).entropy ∧
    (analyzePEFile trivMatcher fileC10a).packerSignatures =
      (analyzePEFile trivMatcher fileC10b).packerSignatures ∧
    (analyzePEFile trivMatcher fileC10a).suspiciousStrings =
      (analyzePEFile trivMatcher fileC10b).suspiciousStrings :=
  c10_prefix_determines trivMatcher fileC10a fileC10b (by decide) (by decide)
    (fun i hi => by simp [fileC10a, fileC10b, hi])

-- ============================================================================
-- CLAIM C1: totality and exception capture
-- ============================================================================

/-- C1: the analysis always returns a record: a normally completed or
structurally rejected run is returned as is, and a thrown internal read
failure is caught and converted into the partially filled record with
its error field set to the exception message — it is never propagated. -/
theorem c1_total_and_caught (matcher : Matcher) (file : Buffer) :
    (∃ r : PEAnalysis, analyzePEFile matcher file = r) ∧
    (∀ a, analyzeSteps matcher file = .ok a → analyzePEFile matcher file = a) ∧
    (∀ a e, analyzeSteps matcher file = .error (a, e) →
      analyzePEFile matcher file = { a with error := some e }) := by
  refine ⟨⟨analyzePEFile matcher file, rfl⟩, ?_, ?_⟩
  · intro a ha
    unfold analyzePEFile
    rw [ha]
  · intro a e ha
    unfold analyzePEFile
    rw [ha]

/-- A 68-byte file whose PE signature sits at the very end of the
buffer, so the COFF header read throws. -/
def fileC1 : Buffer :=
  { size := 68
    data := fun i => if i = 0 then 77 else if i = 1 then 90
            else if i = 60 then 64
            else if i = 64 then 80 else if i = 65 then 69 else 0 }

/-- Witness for C1: on `fileC1` the `try` block throws an out-of-bounds
read and the result is the partial record with the message in `error`. -/
theorem c1_witness :
    ∃ a e, analyzeSteps trivMatcher fileC1 = Except.error (a, e) ∧
      analyzePEFile trivMatcher fileC1 = { a with error := some e } :=
  ⟨_, _, rfl, (c1_total_and_caught trivMatcher fileC1).2.2 _ _ rfl⟩
